import Mathlib

/-!
Shallow embedding of the pdfwala PDF wrapper (src/index.js, and the earlier
minimal implementation in src/unnamed/part_000).

JavaScript strings are modelled as `List Char`.  The filesystem and the two
delegate libraries (pdf-parse for text decoding, pdf-lib for page objects)
are opaque external collaborators, so they are passed to every operation as
function-valued parameters:

  * `exi  : JStr → Bool`                    models `fs.existsSync`;
  * `read : JStr → Except JStr JStr`        models `fs.readFileSync`
    (an `Except.error` is a raw filesystem error with its message);
  * `parse : JStr → Except JStr PdfData`    models `pdfparse(bytes)`, which
    on success yields `{text, numpages}`;
  * `load : JStr → Except JStr (List Nat)`  models `PDFDocument.load`,
    abstracting the loaded document as its list of page objects (each page
    object is an opaque `Nat` identifier; `getPageCount` is the length,
    `copyPages doc [i]` is list indexing).

Each public method of the `PDFKit` class becomes a function returning
`Except PDFKitError result`; a thrown `PDFKitError` is an `Except.error`.
Filesystem writes performed by an operation are part of its returned value
(as `(path, content)` pairs), so that the written data can be reasoned about.
-/

namespace PdfWala

/-- JavaScript strings, modelled as lists of characters. -/
abbrev JStr := List Char

/-- The `type` discriminator tags of `PDFKitError` (src/index.js). -/
inductive ErrType
  | FileNotFound
  | InvalidFileType
  | ParseError
  | PageCountError
  | InvalidSearchTerm
  | SearchError
  | InvalidOutputPath
  | InvalidPageNumbers
  | ExtractPagesError
  | MetadataError
  | ConvertToTextError
  deriving DecidableEq

/-- The custom error class `PDFKitError` of src/index.js: a message plus a
`type` tag. -/
structure PDFKitError where
  message : JStr
  type : ErrType
  deriving DecidableEq

/-- The result of the text-decoding delegate `pdfparse`: the fields of its
return value that the wrapper uses (`data.text` and `data.numpages`). -/
structure PdfData where
  text : JStr
  numpages : Nat
  deriving DecidableEq

/-- Search options of `searchText` (`{caseSensitive = false}`). -/
structure SearchOptions where
  caseSensitive : Bool := false
  deriving DecidableEq

/-- The text-decoding delegate (`pdf-parse`): bytes to `{text, numpages}`. -/
abbrev ParseFn := JStr → Except JStr PdfData

/-- `fs.existsSync`. -/
abbrev ExistsFn := JStr → Bool

/-- `fs.readFileSync`; an `error` is a raw filesystem error. -/
abbrev ReadFn := JStr → Except JStr JStr

/-- The page-manipulation delegate (`pdf-lib`): `PDFDocument.load`,
abstracting a loaded document as its list of opaque page objects. -/
abbrev LoadFn := JStr → Except JStr (List Nat)

/-- JavaScript `String.prototype.toLowerCase`, character-wise. -/
def toLowerStr (s : JStr) : JStr := s.map Char.toLower

/-- JavaScript `String.prototype.split('\n')`: split on every newline; the
result always has one more element than the number of newlines. -/
def splitOnNl : JStr → List JStr
  | [] => [[]]
  | c :: cs =>
    if c = '\n' then [] :: splitOnNl cs
    else
      match splitOnNl cs with
      | [] => [[c]]
      | r :: rs => (c :: r) :: rs

/-- JavaScript `Array.prototype.join('\n')`. -/
def joinNl (lines : List JStr) : JStr := List.intercalate ['\n'] lines

/-- JavaScript `String.prototype.includes`: `includesSub term line` is true
iff `term` occurs as a contiguous substring of `line`. -/
def includesSub (term : JStr) : JStr → Bool
  | [] => term.isPrefixOf []
  | c :: rest => term.isPrefixOf (c :: rest) || includesSub term rest

/-- Strip trailing `/` separators, as Node's `path.basename`/`path.extname`
do before looking at the last component. -/
def dropTrailingSlashes (p : JStr) : JStr :=
  (p.reverse.dropWhile (fun c => c = '/')).reverse

/-- The last path component: everything after the last `/` once trailing
slashes are stripped. -/
def lastComponent (p : JStr) : JStr :=
  ((dropTrailingSlashes p).reverse.takeWhile (fun c => c ≠ '/')).reverse

/-- Node `path.basename`.  For a path made only of separators (e.g. `"/"`)
Node returns `"/"`; otherwise it is the last component. -/
def basename (p : JStr) : JStr :=
  if lastComponent p = [] ∧ p ≠ [] then ['/'] else lastComponent p

/-- Node `path.extname`: the substring of the last component from its last
`.` to the end; `""` when the component has no `.` or when its only `.` is
the leading character (dotfiles have no extension). -/
def extname (p : JStr) : JStr :=
  let b := lastComponent p
  let pre := b.reverse.takeWhile (fun c => c ≠ '.')
  if b.length ≤ pre.length + 1 then [] else '.' :: pre.reverse

/-- `PDFKit._validateFilePath` (src/index.js lines 21-30): throw
`FileNotFound` when the path does not exist, `InvalidFileType` when the
lower-cased extension is not `.pdf`. -/
def validateFilePath (exi : ExistsFn) (filePath : JStr) :
    Except PDFKitError Unit :=
  if exi filePath = false then
    .error ⟨"File not found: ".data ++ filePath, .FileNotFound⟩
  else
    let ext := toLowerStr (extname filePath)
    if ext ≠ ".pdf".data then
      .error ⟨"Invalid file type. Expected .pdf, got ".data ++ ext,
        .InvalidFileType⟩
    else
      .ok ()

/-- `PDFKit.intoarray` (src/index.js lines 37-48): validate, read the file,
decode with `pdfparse`, split the decoded text on newlines.  A
`PDFKitError` is rethrown unchanged; any other failure (filesystem or
delegate) is wrapped as `ParseError`. -/
def intoarray (parse : ParseFn) (exi : ExistsFn) (read : ReadFn)
    (filePath : JStr) : Except PDFKitError (List JStr) :=
  match validateFilePath exi filePath with
  | .error e => .error e
  | .ok _ =>
    match read filePath with
    | .error msg => .error ⟨"Failed to parse PDF: ".data ++ msg, .ParseError⟩
    | .ok bytes =>
      match parse bytes with
      | .error msg =>
        .error ⟨"Failed to parse PDF: ".data ++ msg, .ParseError⟩
      | .ok data => .ok (splitOnNl data.text)

/-- `PDFKit.getPageCount` (src/index.js lines 55-66). -/
def getPageCount (parse : ParseFn) (exi : ExistsFn) (read : ReadFn)
    (filePath : JStr) : Except PDFKitError Nat :=
  match validateFilePath exi filePath with
  | .error e => .error e
  | .ok _ =>
    match read filePath with
    | .error msg =>
      .error ⟨"Failed to get page count: ".data ++ msg, .PageCountError⟩
    | .ok bytes =>
      match parse bytes with
      | .error msg =>
        .error ⟨"Failed to get page count: ".data ++ msg, .PageCountError⟩
      | .ok data => .ok data.numpages

/-- `PDFKit.searchText` (src/index.js lines 76-93): validate the path, then
reject an empty search term with `InvalidSearchTerm`, then reuse
`intoarray` and filter its lines by substring containment (case-folded on
both sides unless `caseSensitive`).  A nested `PDFKitError` (including
`intoarray`'s `ParseError`) is rethrown unchanged. -/
def searchText (parse : ParseFn) (exi : ExistsFn) (read : ReadFn)
    (filePath searchTerm : JStr) (options : SearchOptions) :
    Except PDFKitError (List JStr) :=
  match validateFilePath exi filePath with
  | .error e => .error e
  | .ok _ =>
    if searchTerm = [] then
      .error ⟨"Invalid search terms provided".data, .InvalidSearchTerm⟩
    else
      match intoarray parse exi read filePath with
      | .error e => .error e
      | .ok lines =>
        let searchFunc :=
          if options.caseSensitive then
            fun line => includesSub searchTerm line
          else
            fun line => includesSub (toLowerStr searchTerm) (toLowerStr line)
        .ok (lines.filter searchFunc)

/-- The page-copying loop of `extractPages` (src/index.js lines 119-126):
each requested 1-based page number in input order is copied iff
`0 < pageNum ≤ sourcePageCount`; out-of-range numbers are skipped (the
code only warns). -/
def extractLoop (srcPages : List Nat) : List Int → List Nat
  | [] => []
  | n :: ns =>
    if 0 < n ∧ n ≤ (srcPages.length : Int) then
      srcPages.getD (n - 1).toNat 0 :: extractLoop srcPages ns
    else
      extractLoop srcPages ns

/-- `PDFKit.extractPages` (src/index.js lines 101-134): validate the input
path, reject a falsy output path (`InvalidOutputPath`) and an empty page
list (`InvalidPageNumbers`), load the source document, copy the in-range
requested pages in order, save and write the new document.  The result is
the `(outputPath, pages written)` pair; delegate or filesystem failures
are wrapped as `ExtractPagesError`. -/
def extractPages (load : LoadFn) (exi : ExistsFn) (read : ReadFn)
    (inputPath outputPath : JStr) (pageNumbers : List Int) :
    Except PDFKitError (JStr × List Nat) :=
  match validateFilePath exi inputPath with
  | .error e => .error e
  | .ok _ =>
    if outputPath = [] then
      .error ⟨"Invalid path provided".data, .InvalidOutputPath⟩
    else if pageNumbers = [] then
      .error ⟨"Invalid page numbers provided".data, .InvalidPageNumbers⟩
    else
      match read inputPath with
      | .error msg =>
        .error ⟨"Failed to extract pages: ".data ++ msg, .ExtractPagesError⟩
      | .ok bytes =>
        match load bytes with
        | .error msg =>
          .error ⟨"Failed to extract pages: ".data ++ msg, .ExtractPagesError⟩
        | .ok srcPages => .ok (outputPath, extractLoop srcPages pageNumbers)

/-- The record returned by `getMetadata` (src/index.js lines 147-152). -/
structure PdfMetadata where
  totalPages : Nat
  totalText : JStr
  textLength : Nat
  filename : JStr
  deriving DecidableEq

/-- `PDFKit.getMetadata` (src/index.js lines 141-157): validate, read,
decode, and package `{numpages, text, text.length, basename(path)}`.
Failures other than `PDFKitError` are wrapped as `MetadataError`. -/
def getMetadata (parse : ParseFn) (exi : ExistsFn) (read : ReadFn)
    (filePath : JStr) : Except PDFKitError PdfMetadata :=
  match validateFilePath exi filePath with
  | .error e => .error e
  | .ok _ =>
    match read filePath with
    | .error msg =>
      .error ⟨"Failed to get metadata: ".data ++ msg, .MetadataError⟩
    | .ok bytes =>
      match parse bytes with
      | .error msg =>
        .error ⟨"Failed to get metadata: ".data ++ msg, .MetadataError⟩
      | .ok data =>
        .ok ⟨data.numpages, data.text, data.text.length, basename filePath⟩

/-- `PDFKit.convertToText` (src/index.js lines 165-178): validate, reuse
`intoarray`, rejoin the lines with `\n`.  With a truthy (non-empty) output
path the joined text is written there and `""` is returned; otherwise the
joined text is returned and nothing is written.  The returned pair is
`(return value, list of (path, content) writes)`. -/
def convertToText (parse : ParseFn) (exi : ExistsFn) (read : ReadFn)
    (inputPath outputPath : JStr) :
    Except PDFKitError (JStr × List (JStr × JStr)) :=
  match validateFilePath exi inputPath with
  | .error e => .error e
  | .ok _ =>
    match intoarray parse exi read inputPath with
    | .error e => .error e
    | .ok lines =>
      if outputPath ≠ [] then .ok ([], [(outputPath, joinNl lines)])
      else .ok (joinNl lines, [])

/-- The earlier minimal `intoarray` (src/unnamed/part_000 lines 5-14): no
validation and no error wrapping; the raw filesystem or delegate error is
the rejection value. -/
def intoarrayOld (parse : ParseFn) (read : ReadFn) (filePath : JStr) :
    Except JStr (List JStr) :=
  match read filePath with
  | .error err => .error err
  | .ok bytes =>
    match parse bytes with
    | .error err => .error err
    | .ok data => .ok (splitOnNl data.text)

/-- The `type` tag of a failed call, `none` on success. -/
def errTypeOf {α : Type} : Except PDFKitError α → Option ErrType
  | .error e => some e.type
  | .ok _ => none

/-! ### Helper lemmas -/

theorem splitOnNl_ne_nil (s : JStr) : splitOnNl s ≠ [] := by
  cases s with
  | nil => simp [splitOnNl]
  | cons c cs =>
    simp only [splitOnNl]
    split
    · simp
    · split <;> simp

theorem includesSub_iff_infix (term line : JStr) :
    includesSub term line = true ↔ term <:+: line := by
  induction line with
  | nil =>
    simp [includesSub, List.isPrefixOf_iff_prefix, List.prefix_nil,
      List.infix_nil]
  | cons c rest ih =>
    simp [includesSub, List.isPrefixOf_iff_prefix, ih, List.infix_cons_iff]

theorem includesSub_eq_decide (term line : JStr) :
    includesSub term line = decide (term <:+: line) := by
  by_cases h : term <:+: line
  · simp [h, includesSub_iff_infix]
  · have h2 : includesSub term line = false := by
      rw [← Bool.not_eq_true, includesSub_iff_infix]
      exact h
    simp [h, h2]

theorem extractLoop_eq_filter_map (src : List Nat) (ns : List Int) :
    extractLoop src ns =
      (ns.filter fun n => decide (0 < n ∧ n ≤ (src.length : Int))).map
        fun n => src.getD (n - 1).toNat 0 := by
  induction ns with
  | nil => rfl
  | cons n ns ih =>
    by_cases h : 0 < n ∧ n ≤ (src.length : Int) <;>
      simp [extractLoop, h, ih]

theorem validateFilePath_ok (exi : ExistsFn) (p : JStr)
    (h1 : exi p = true) (h2 : toLowerStr (extname p) = ".pdf".data) :
    validateFilePath exi p = .ok () := by
  simp [validateFilePath, h1, h2]

theorem validateFilePath_error_type {exi : ExistsFn} {p : JStr}
    {e : PDFKitError} (h : validateFilePath exi p = .error e) :
    e.type = ErrType.FileNotFound ∨ e.type = ErrType.InvalidFileType := by
  simp only [validateFilePath] at h
  split at h
  · injection h with h2
    subst h2
    exact Or.inl rfl
  · split at h
    · injection h with h2
      subst h2
      exact Or.inr rfl
    · exact Except.noConfusion h

theorem validateFilePath_ok_ext {exi : ExistsFn} {p : JStr}
    (h : validateFilePath exi p = .ok ()) :
    toLowerStr (extname p) = ".pdf".data := by
  simp only [validateFilePath] at h
  split at h
  · exact Except.noConfusion h
  · split at h
    · exact Except.noConfusion h
    · rename_i hcond
      exact not_not.mp hcond

theorem intoarray_ok_validate {parse : ParseFn} {exi : ExistsFn}
    {read : ReadFn} {p : JStr} {lines : List JStr}
    (h : intoarray parse exi read p = .ok lines) :
    validateFilePath exi p = .ok () := by
  unfold intoarray at h
  cases hv : validateFilePath exi p with
  | error e => simp [hv] at h
  | ok u => cases u; rfl

theorem intoarray_error_type {parse : ParseFn} {exi : ExistsFn}
    {read : ReadFn} {p : JStr} {e : PDFKitError}
    (h : intoarray parse exi read p = .error e) :
    e.type = ErrType.FileNotFound ∨ e.type = ErrType.InvalidFileType ∨
      e.type = ErrType.ParseError := by
  unfold intoarray at h
  split at h
  · rename_i e2 heq
    injection h with h2
    subst h2
    rcases validateFilePath_error_type heq with h3 | h3
    · exact Or.inl h3
    · exact Or.inr (Or.inl h3)
  · split at h
    · injection h with h2
      subst h2
      exact Or.inr (Or.inr rfl)
    · split at h
      · injection h with h2
        subst h2
        exact Or.inr (Or.inr rfl)
      · exact Except.noConfusion h

theorem intoarray_eq_ok {parse : ParseFn} {exi : ExistsFn} {read : ReadFn}
    {p bytes : JStr} {data : PdfData}
    (hval : validateFilePath exi p = .ok ())
    (hread : read p = .ok bytes) (hparse : parse bytes = .ok data) :
    intoarray parse exi read p = .ok (splitOnNl data.text) := by
  simp [intoarray, hval, hread, hparse]

theorem lastComponent_no_slash (p : JStr) :
    ∀ c ∈ lastComponent p, c ≠ '/' := by
  intro c hc
  unfold lastComponent at hc
  rw [List.mem_reverse] at hc
  simpa using List.mem_takeWhile_imp hc

theorem lastComponent_suffix (p : JStr) :
    lastComponent p <:+ dropTrailingSlashes p := by
  unfold lastComponent
  refine ⟨((dropTrailingSlashes p).reverse.dropWhile
    (fun c => c ≠ '/')).reverse, ?_⟩
  rw [← List.reverse_append, List.takeWhile_append_dropWhile,
    List.reverse_reverse]

theorem lastComponent_ne_nil_of_ext {p : JStr} (h : extname p ≠ []) :
    lastComponent p ≠ [] := by
  intro hnil
  exact h (by simp [extname, hnil])

theorem basename_eq_lastComponent {p : JStr} (h : lastComponent p ≠ []) :
    basename p = lastComponent p := by
  simp [basename, h]

theorem getMetadata_ok_parts {parse : ParseFn} {exi : ExistsFn}
    {read : ReadFn} {p : JStr} {m : PdfMetadata}
    (h : getMetadata parse exi read p = .ok m) :
    validateFilePath exi p = .ok () ∧ m.filename = basename p ∧
      m.textLength = m.totalText.length := by
  unfold getMetadata at h
  cases hv : validateFilePath exi p with
  | error e => simp [hv] at h
  | ok u =>
    cases u
    refine ⟨rfl, ?_⟩
    simp only [hv] at h
    cases hr : read p with
    | error msg => simp [hr] at h
    | ok bytes =>
      simp only [hr] at h
      cases hp : parse bytes with
      | error msg => simp [hp] at h
      | ok data =>
        simp only [hp] at h
        injection h with h2
        subst h2
        exact ⟨rfl, rfl⟩

/-! ### Claims -/

/-- C1 counterexample: the claim says `searchText` with an empty search term
fails with `InvalidSearchTerm` for every path, including non-existent ones.
On a non-existent path with an empty term the code instead fails with
`FileNotFound`, because `_validateFilePath` runs before the term check. -/
theorem C1_counterexample :
    errTypeOf (searchText (fun _ => .error []) (fun _ => false)
      (fun _ => .error []) "missing.pdf".data [] ⟨false⟩) =
      some ErrType.FileNotFound ∧
    ErrType.FileNotFound ≠ ErrType.InvalidSearchTerm := by
  exact ⟨rfl, by decide⟩

/-- C1 (amended): for every path that passes file validation and every
options value, `searchText` with an empty search term throws an error with
type tag `InvalidSearchTerm`. -/
theorem C1_theorem (parse : ParseFn) (exi : ExistsFn) (read : ReadFn)
    (p : JStr) (opts : SearchOptions)
    (hval : validateFilePath exi p = .ok ()) :
    searchText parse exi read p [] opts =
      .error ⟨"Invalid search terms provided".data,
        ErrType.InvalidSearchTerm⟩ := by
  simp [searchText, hval]

/-- C1 witness: the amended theorem applied at a concrete existing
`.pdf` path. -/
theorem C1_witness :
    searchText (fun _ => .error []) (fun _ => true) (fun _ => .error [])
      "doc.pdf".data [] ⟨false⟩ =
      .error ⟨"Invalid search terms provided".data,
        ErrType.InvalidSearchTerm⟩ :=
  C1_theorem (fun _ => .error []) (fun _ => true) (fun _ => .error [])
    "doc.pdf".data ⟨false⟩ rfl

/-- C2 counterexample: the claim says no tag other than `FileNotFound`,
`InvalidFileType`, `InvalidSearchTerm`, `SearchError` — in particular no
`ParseError` — can be observed by a caller of `searchText`.  When the
text-decoding delegate fails on an existing `.pdf` path, `intoarray`
wraps the failure as `ParseError` and `searchText` rethrows it unchanged
(the `instanceof PDFKitError` check), so the caller observes `ParseError`. -/
theorem C2_counterexample :
    errTypeOf (searchText (fun _ => .error "bad xref".data) (fun _ => true)
      (fun _ => .ok []) "doc.pdf".data "x".data ⟨false⟩) =
      some ErrType.ParseError ∧
    ErrType.ParseError ∉ [ErrType.FileNotFound, ErrType.InvalidFileType,
      ErrType.InvalidSearchTerm, ErrType.SearchError] := by
  exact ⟨rfl, by decide⟩

/-- C2 (amended): every failure of `searchText` carries one of the tags
`FileNotFound`, `InvalidFileType`, `InvalidSearchTerm`, `SearchError`, or
`ParseError` (the last bubbling up unchanged from the nested `intoarray`
call). -/
theorem C2_theorem (parse : ParseFn) (exi : ExistsFn) (read : ReadFn)
    (p term : JStr) (opts : SearchOptions) (e : PDFKitError)
    (h : searchText parse exi read p term opts = .error e) :
    e.type ∈ [ErrType.FileNotFound, ErrType.InvalidFileType,
      ErrType.InvalidSearchTerm, ErrType.SearchError,
      ErrType.ParseError] := by
  unfold searchText at h
  split at h
  · rename_i e2 heq
    injection h with h2
    subst h2
    rcases validateFilePath_error_type heq with h3 | h3 <;> simp [h3]
  · split at h
    · injection h with h2
      subst h2
      simp
    · split at h
      · rename_i e2 heq
        injection h with h2
        subst h2
        rcases intoarray_error_type heq with h3 | h3 | h3 <;> simp [h3]
      · exact Except.noConfusion h

/-- C2 witness: the amended theorem applied to a concrete failing call (a
non-existent path). -/
theorem C2_witness :
    (⟨"File not found: ".data ++ "missing.pdf".data,
      ErrType.FileNotFound⟩ : PDFKitError).type ∈
      [ErrType.FileNotFound, ErrType.InvalidFileType,
        ErrType.InvalidSearchTerm, ErrType.SearchError,
        ErrType.ParseError] :=
  C2_theorem (fun _ => .error []) (fun _ => false) (fun _ => .error [])
    "missing.pdf".data "x".data ⟨false⟩ _ rfl

/-- C3: for every valid input, `extractPages` visits the requested 1-based
page numbers in input order, copying page `n` iff `1 ≤ n ≤` source page
count and skipping out-of-range numbers without error, so duplicates and
reorderings are preserved.  The general conjunct characterises the output
as the filter-and-map of the requested numbers; on a 5-page source,
`[2,5,2]` yields a 3-page output in order [2,5,2] and `[0,6]` yields a
0-page output with no thrown error. -/
theorem C3_theorem (load : LoadFn) (exi : ExistsFn) (read : ReadFn)
    (inp out bytes : JStr) (nums : List Int) (src : List Nat)
    (hval : validateFilePath exi inp = .ok ())
    (hout : out ≠ []) (hnums : nums ≠ [])
    (hread : read inp = .ok bytes) (hload : load bytes = .ok src) :
    extractPages load exi read inp out nums =
      .ok (out,
        (nums.filter fun n => decide (0 < n ∧ n ≤ (src.length : Int))).map
          fun n => src.getD (n - 1).toNat 0) ∧
    extractPages (fun _ => .ok [10, 20, 30, 40, 50]) (fun _ => true)
        (fun _ => .ok []) "in.pdf".data "out.pdf".data [2, 5, 2] =
      .ok ("out.pdf".data, [20, 50, 20]) ∧
    extractPages (fun _ => .ok [10, 20, 30, 40, 50]) (fun _ => true)
        (fun _ => .ok []) "in.pdf".data "out.pdf".data [0, 6] =
      .ok ("out.pdf".data, []) := by
  refine ⟨?_, rfl, rfl⟩
  simp [extractPages, hval, hout, hnums, hread, hload,
    extractLoop_eq_filter_map]

/-- C3 witness: the theorem applied at a concrete 5-page source with
request `[2,5,2]`. -/
theorem C3_witness :
    extractPages (fun _ => .ok [10, 20, 30, 40, 50]) (fun _ => true)
        (fun _ => .ok []) "in.pdf".data "out.pdf".data [2, 5, 2] =
      .ok ("out.pdf".data,
        (([2, 5, 2] : List Int).filter fun n =>
          decide (0 < n ∧ n ≤ (([10, 20, 30, 40, 50] : List Nat).length : Int))).map
          fun n => ([10, 20, 30, 40, 50] : List Nat).getD (n - 1).toNat 0) :=
  (C3_theorem (fun _ => .ok [10, 20, 30, 40, 50]) (fun _ => true)
    (fun _ => .ok []) "in.pdf".data "out.pdf".data [] [2, 5, 2]
    [10, 20, 30, 40, 50] rfl (by decide) (by decide) rfl rfl).1

/-- C4: for every valid path whose decode succeeds, `convertToText` with no
output path returns exactly the newline-join of `intoarray`'s result on
the same path (and writes nothing), and `convertToText` with a non-empty
output path writes that same joined string to the output path and returns
the empty string. -/
theorem C4_theorem (parse : ParseFn) (exi : ExistsFn) (read : ReadFn)
    (inp out : JStr) (lines : List JStr)
    (hlines : intoarray parse exi read inp = .ok lines) :
    convertToText parse exi read inp [] = .ok (joinNl lines, []) ∧
    (out ≠ [] →
      convertToText parse exi read inp out =
        .ok ([], [(out, joinNl lines)])) := by
  have hval := intoarray_ok_validate hlines
  constructor
  · simp [convertToText, hval, hlines]
  · intro hout
    simp [convertToText, hval, hlines, hout]

/-- C4 witness: the theorem applied at a concrete decodable `.pdf` path,
both without and with an output path. -/
theorem C4_witness :
    convertToText (fun _ => .ok ⟨"a\nb".data, 1⟩) (fun _ => true)
        (fun _ => .ok []) "doc.pdf".data [] =
      .ok (joinNl ["a".data, "b".data], []) ∧
    convertToText (fun _ => .ok ⟨"a\nb".data, 1⟩) (fun _ => true)
        (fun _ => .ok []) "doc.pdf".data "out.txt".data =
      .ok ([], [("out.txt".data, joinNl ["a".data, "b".data])]) :=
  ⟨(C4_theorem (fun _ => .ok ⟨"a\nb".data, 1⟩) (fun _ => true)
      (fun _ => .ok []) "doc.pdf".data "out.txt".data
      ["a".data, "b".data] rfl).1,
   (C4_theorem (fun _ => .ok ⟨"a\nb".data, 1⟩) (fun _ => true)
      (fun _ => .ok []) "doc.pdf".data "out.txt".data
      ["a".data, "b".data] rfl).2 (by decide)⟩

/-- C5: for every valid path, when the text-decoding delegate succeeds,
`intoarray` returns the delegate's text split on newline characters; the
returned sequence always has length ≥ 1; a decoded text of `"a\nb\nc"`
yields `["a","b","c"]` and a decoded text of `""` yields `[""]`. -/
theorem C5_theorem (parse : ParseFn) (exi : ExistsFn) (read : ReadFn)
    (p bytes : JStr) (data : PdfData)
    (hval : validateFilePath exi p = .ok ())
    (hread : read p = .ok bytes) (hparse : parse bytes = .ok data) :
    intoarray parse exi read p = .ok (splitOnNl data.text) ∧
    1 ≤ (splitOnNl data.text).length ∧
    splitOnNl "a\nb\nc".data = ["a".data, "b".data, "c".data] ∧
    splitOnNl [] = [[]] :=
  ⟨intoarray_eq_ok hval hread hparse,
   List.length_pos.mpr (splitOnNl_ne_nil data.text), by decide, by decide⟩

/-- C5 witness: the theorem applied at a concrete path whose decoded text
is `"a\nb\nc"`. -/
theorem C5_witness :
    intoarray (fun _ => .ok ⟨"a\nb\nc".data, 3⟩) (fun _ => true)
        (fun _ => .ok []) "doc.pdf".data =
      .ok (splitOnNl "a\nb\nc".data) ∧
    1 ≤ (splitOnNl "a\nb\nc".data).length ∧
    splitOnNl "a\nb\nc".data = ["a".data, "b".data, "c".data] ∧
    splitOnNl [] = [[]] :=
  C5_theorem (fun _ => .ok ⟨"a\nb\nc".data, 3⟩) (fun _ => true)
    (fun _ => .ok []) "doc.pdf".data [] ⟨"a\nb\nc".data, 3⟩ rfl rfl rfl

/-- C6: for every valid path, non-empty term and `caseSensitive` flag,
`searchText` returns the ordered subsequence (filter) of the `intoarray`
lines that contain the term as a contiguous substring — both sides
case-folded when `caseSensitive` is false, exact when it is true. -/
theorem C6_theorem (parse : ParseFn) (exi : ExistsFn) (read : ReadFn)
    (p term : JStr) (opts : SearchOptions) (lines : List JStr)
    (hterm : term ≠ [])
    (hlines : intoarray parse exi read p = .ok lines) :
    searchText parse exi read p term opts =
      .ok (lines.filter fun line =>
        if opts.caseSensitive then decide (term <:+: line)
        else decide (toLowerStr term <:+: toLowerStr line)) := by
  have hval := intoarray_ok_validate hlines
  simp only [searchText, hval, if_neg hterm, hlines]
  congr 1
  by_cases hc : opts.caseSensitive <;>
    simp [hc, includesSub_eq_decide]

/-- C6 witness: the theorem applied at a concrete document
`"Foo bar\nbaz\nfOo qux"` with term `"Foo"`, case-insensitive. -/
theorem C6_witness :
    searchText (fun _ => .ok ⟨"Foo bar\nbaz\nfOo qux".data, 1⟩)
        (fun _ => true) (fun _ => .ok []) "doc.pdf".data "Foo".data
        ⟨false⟩ =
      .ok ((["Foo bar".data, "baz".data, "fOo qux".data].filter fun line =>
        if (⟨false⟩ : SearchOptions).caseSensitive then
          decide ("Foo".data <:+: line)
        else
          decide (toLowerStr "Foo".data <:+: toLowerStr line))) :=
  C6_theorem (fun _ => .ok ⟨"Foo bar\nbaz\nfOo qux".data, 1⟩)
    (fun _ => true) (fun _ => .ok []) "doc.pdf".data "Foo".data ⟨false⟩
    ["Foo bar".data, "baz".data, "fOo qux".data] (by decide) rfl

/-- C7: for every public operation, a path that does not exist fails with
`FileNotFound`, and an existing path whose lower-cased extension is not
`.pdf` fails with `InvalidFileType`.  Both failures are independent of the
`read`, `parse` and `load` delegates (they are universally quantified), so
they occur before any file read or delegate-library invocation. -/
theorem C7_theorem (parse : ParseFn) (load : LoadFn) (exi : ExistsFn)
    (read : ReadFn) (p term out : JStr) (opts : SearchOptions)
    (nums : List Int) :
    (exi p = false →
      errTypeOf (intoarray parse exi read p) = some ErrType.FileNotFound ∧
      errTypeOf (getPageCount parse exi read p) = some ErrType.FileNotFound ∧
      errTypeOf (searchText parse exi read p term opts) =
        some ErrType.FileNotFound ∧
      errTypeOf (extractPages load exi read p out nums) =
        some ErrType.FileNotFound ∧
      errTypeOf (getMetadata parse exi read p) = some ErrType.FileNotFound ∧
      errTypeOf (convertToText parse exi read p out) =
        some ErrType.FileNotFound) ∧
    (exi p = true → toLowerStr (extname p) ≠ ".pdf".data →
      errTypeOf (intoarray parse exi read p) = some ErrType.InvalidFileType ∧
      errTypeOf (getPageCount parse exi read p) =
        some ErrType.InvalidFileType ∧
      errTypeOf (searchText parse exi read p term opts) =
        some ErrType.InvalidFileType ∧
      errTypeOf (extractPages load exi read p out nums) =
        some ErrType.InvalidFileType ∧
      errTypeOf (getMetadata parse exi read p) =
        some ErrType.InvalidFileType ∧
      errTypeOf (convertToText parse exi read p out) =
        some ErrType.InvalidFileType) := by
  constructor
  · intro hx
    have hv : validateFilePath exi p =
        .error ⟨"File not found: ".data ++ p, .FileNotFound⟩ := by
      simp [validateFilePath, hx]
    refine ⟨?_, ?_, ?_, ?_, ?_, ?_⟩ <;>
      simp [intoarray, getPageCount, searchText, extractPages, getMetadata,
        convertToText, hv, errTypeOf]
  · intro hx hext
    have hv : validateFilePath exi p =
        .error ⟨"Invalid file type. Expected .pdf, got ".data ++
          toLowerStr (extname p), .InvalidFileType⟩ := by
      simp [validateFilePath, hx, hext]
    refine ⟨?_, ?_, ?_, ?_, ?_, ?_⟩ <;>
      simp [intoarray, getPageCount, searchText, extractPages, getMetadata,
        convertToText, hv, errTypeOf]

/-- C7 witness: the theorem applied at a non-existent path (first tag) and
at an existing `.txt` path (second tag), for the `intoarray` operation. -/
theorem C7_witness :
    errTypeOf (intoarray (fun _ => .error []) (fun _ => false)
      (fun _ => .error []) "missing.pdf".data) =
      some ErrType.FileNotFound ∧
    errTypeOf (intoarray (fun _ => .error []) (fun _ => true)
      (fun _ => .error []) "notes.txt".data) =
      some ErrType.InvalidFileType :=
  ⟨((C7_theorem (fun _ => .error []) (fun _ => .error [])
      (fun _ => false) (fun _ => .error []) "missing.pdf".data [] []
      ⟨false⟩ []).1 rfl).1,
   ((C7_theorem (fun _ => .error []) (fun _ => .error [])
      (fun _ => true) (fun _ => .error []) "notes.txt".data [] []
      ⟨false⟩ []).2 rfl (by decide)).1⟩

/-- C8: for every valid path on which `getMetadata` succeeds, the returned
record satisfies `textLength = totalText.length`, and `totalPages` equals
the page count reported by the text-decoding delegate. -/
theorem C8_theorem (parse : ParseFn) (exi : ExistsFn) (read : ReadFn)
    (p bytes : JStr) (data : PdfData) (m : PdfMetadata)
    (hread : read p = .ok bytes) (hparse : parse bytes = .ok data)
    (hm : getMetadata parse exi read p = .ok m) :
    m.textLength = m.totalText.length ∧ m.totalPages = data.numpages := by
  unfold getMetadata at hm
  cases hv : validateFilePath exi p with
  | error e => simp [hv] at hm
  | ok u =>
    cases u
    simp only [hv, hread, hparse] at hm
    injection hm with h2
    subst h2
    exact ⟨rfl, rfl⟩

/-- C8 witness: the theorem applied at a concrete path whose decoded data
is `{text := "hello", numpages := 2}`. -/
theorem C8_witness :
    (⟨2, "hello".data, 5, "doc.pdf".data⟩ : PdfMetadata).textLength =
      (⟨2, "hello".data, 5, "doc.pdf".data⟩ : PdfMetadata).totalText.length ∧
    (⟨2, "hello".data, 5, "doc.pdf".data⟩ : PdfMetadata).totalPages =
      (⟨"hello".data, 2⟩ : PdfData).numpages :=
  C8_theorem (fun _ => .ok ⟨"hello".data, 2⟩) (fun _ => true)
    (fun _ => .ok []) "doc.pdf".data [] ⟨"hello".data, 2⟩
    ⟨2, "hello".data, 5, "doc.pdf".data⟩ rfl rfl rfl

/-- C9: for every valid path on which `getMetadata` succeeds, the
`filename` field equals the basename (the last path component) of the
input path: it contains no `/` separator and is a suffix of the path,
rather than being the full path. -/
theorem C9_theorem (parse : ParseFn) (exi : ExistsFn) (read : ReadFn)
    (p : JStr) (m : PdfMetadata)
    (hm : getMetadata parse exi read p = .ok m) :
    m.filename = basename p ∧ '/' ∉ m.filename ∧
      m.filename <:+ dropTrailingSlashes p := by
  obtain ⟨hval, hname, -⟩ := getMetadata_ok_parts hm
  have hext : extname p ≠ [] := by
    intro hnil
    have := validateFilePath_ok_ext hval
    rw [hnil] at this
    exact absurd this (by decide)
  have hlast : lastComponent p ≠ [] := lastComponent_ne_nil_of_ext hext
  have hbase : basename p = lastComponent p := basename_eq_lastComponent hlast
  refine ⟨hname, ?_, ?_⟩
  · rw [hname, hbase]
    intro hmem
    exact lastComponent_no_slash p '/' hmem rfl
  · rw [hname, hbase]
    exact lastComponent_suffix p

/-- C9 witness: the theorem applied at the concrete path
`"/docs/report.pdf"`, whose metadata carries filename `"report.pdf"`. -/
theorem C9_witness :
    (⟨1, "hi".data, 2, "report.pdf".data⟩ : PdfMetadata).filename =
      basename "/docs/report.pdf".data ∧
    '/' ∉ (⟨1, "hi".data, 2, "report.pdf".data⟩ : PdfMetadata).filename ∧
    (⟨1, "hi".data, 2, "report.pdf".data⟩ : PdfMetadata).filename <:+
      dropTrailingSlashes "/docs/report.pdf".data :=
  C9_theorem (fun _ => .ok ⟨"hi".data, 1⟩) (fun _ => true)
    (fun _ => .ok []) "/docs/report.pdf".data
    ⟨1, "hi".data, 2, "report.pdf".data⟩ rfl

/-- C10: on every input where the path is an existing `.pdf` file and the
text-decoding delegate succeeds, the current `intoarray` (src/index.js)
and the earlier minimal `intoarray` (src/unnamed/part_000) return the same
sequence of lines.  They differ only in failure behaviour: the earlier
version propagates raw filesystem and delegate errors unwrapped, while the
current one wraps them as `ParseError`. -/
theorem C10_theorem (parse : ParseFn) (exi : ExistsFn) (read : ReadFn)
    (p bytes : JStr) (data : PdfData)
    (hex : exi p = true) (hext : toLowerStr (extname p) = ".pdf".data) :
    (read p = .ok bytes → parse bytes = .ok data →
      intoarray parse exi read p = .ok (splitOnNl data.text) ∧
      intoarrayOld parse read p = .ok (splitOnNl data.text)) ∧
    (∀ msg, read p = .error msg → intoarrayOld parse read p = .error msg) ∧
    (∀ msg, read p = .ok bytes → parse bytes = .error msg →
      intoarrayOld parse read p = .error msg ∧
      errTypeOf (intoarray parse exi read p) = some ErrType.ParseError) := by
  have hval : validateFilePath exi p = .ok () :=
    validateFilePath_ok exi p hex hext
  refine ⟨?_, ?_, ?_⟩
  · intro hr hp
    exact ⟨intoarray_eq_ok hval hr hp, by simp [intoarrayOld, hr, hp]⟩
  · intro msg hr
    simp [intoarrayOld, hr]
  · intro msg hr hp
    exact ⟨by simp [intoarrayOld, hr, hp],
      by simp [intoarray, errTypeOf, hval, hr, hp]⟩

/-- C10 witness: the theorem applied at a concrete existing `.pdf` path on
which the delegate succeeds: both implementations return the same lines. -/
theorem C10_witness :
    intoarray (fun _ => .ok ⟨"a\nb".data, 1⟩) (fun _ => true)
        (fun _ => .ok "bytes".data) "doc.pdf".data =
      .ok (splitOnNl "a\nb".data) ∧
    intoarrayOld (fun _ => .ok ⟨"a\nb".data, 1⟩)
        (fun _ => .ok "bytes".data) "doc.pdf".data =
      .ok (splitOnNl "a\nb".data) :=
  (C10_theorem (fun _ => .ok ⟨"a\nb".data, 1⟩) (fun _ => true)
    (fun _ => .ok "bytes".data) "doc.pdf".data "bytes".data
    ⟨"a\nb".data, 1⟩ rfl (by decide)).1 rfl rfl

end PdfWala
